import Mathlib

/-!
# Verification of the vn_stock layered data pipeline

A shallow embedding, in Lean 4, of the core components of the vn_stock
repository: the GOLD feature builder (`src/transform/build_stock_price_daily.py`),
the partitioned S3 storage writer (`src/utils/s3_utils.py`), the layer save
routines (`src/load/save_raw_to_s3.py`, `save_silver_to_s3.py`,
`save_gold_to_s3.py`), the generic schema validator
(`src/transform/validate_silver_schema.py`) and the SILVER cleaning step
(`src/transform/clean_stock_price.py`).

Conventions of the embedding:
* pandas numeric values (`float64`) are modelled as `ℚ`; a nullable cell is an
  `Option`; `NaN` is `none`.
* `pd.to_numeric(column, errors="coerce")` is modelled by taking the raw
  numeric cells as `Option ℚ` directly (`none` = missing or unparseable).
* `datetime64[ns]` timestamps are modelled as an integer day together with a
  time-of-day component; `.dt.normalize()` zeroes the time-of-day.
* a DataFrame is modelled by a list of typed rows plus Boolean flags recording
  which columns are present (a missing column makes the row fields
  meaningless; the code under verification never reads them in that case).
* exceptions are modelled with `Except`; logger warnings that the claims talk
  about are returned alongside the result.
-/

/-! ## Feature builder: `build_stock_price_daily`

Embeds `src/transform/build_stock_price_daily.py`.  A SILVER row carries the
five columns the builder requires; `close_price` and `volume` are the values
*after* `pd.to_numeric(..., errors="coerce")`, hence `Option ℚ`.
-/

/-- A row of the SILVER DataFrame, as consumed by `build_stock_price_daily`.
`close_price` and `volume` are the post-`to_numeric` cells (`none` = NaN). -/
structure SilverRow where
  symbol : String
  exchange : String
  trading_date : Int
  close_price : Option ℚ
  volume : Option ℚ
deriving DecidableEq

/-- The SILVER DataFrame: presence flags for the five required columns, the
dtype flag for `trading_date`, and the rows. -/
structure SilverFrame where
  hasSymbol : Bool
  hasExchange : Bool
  hasTradingDate : Bool
  hasClosePrice : Bool
  hasVolume : Bool
  tdIsDatetime : Bool
  rows : List SilverRow
deriving DecidableEq

/-- A SILVER row after `dropna(subset=["close_price", "volume"])`: both
numeric cells are known to be present. -/
structure DRow where
  symbol : String
  exchange : String
  trading_date : Int
  close_price : ℚ
  volume : ℚ
deriving DecidableEq

/-- A row of the GOLD DataFrame produced by the builder. -/
structure GoldRow where
  symbol : String
  exchange : String
  trading_date : Int
  close_price : ℚ
  volume : ℚ
  daily_return : Option ℚ
  ma_5 : ℚ
  ma_20 : ℚ
deriving DecidableEq

/-- `df.dropna(subset=["close_price", "volume"])`: keep the rows whose two
numeric cells are non-null, with their now-total values. -/
def dropnaRows (rows : List SilverRow) : List DRow :=
  rows.filterMap fun r =>
    match r.close_price, r.volume with
    | some c, some v => some ⟨r.symbol, r.exchange, r.trading_date, c, v⟩
    | _, _ => none

/-- The sort key of `sort_values(by=["symbol", "exchange", "trading_date"])`:
lexicographic on the three columns (strings compare by code points, as in
pandas, via their character lists). -/
def rowKey (r : DRow) : List Char ×ₗ List Char ×ₗ Int :=
  toLex (r.symbol.data, toLex (r.exchange.data, r.trading_date))

/-- The deduplication key `(symbol, exchange, trading_date)`. -/
def dupKey (r : DRow) : String × String × Int :=
  (r.symbol, r.exchange, r.trading_date)

/-- The grouping key `(symbol, exchange)` used by `groupby`. -/
def grpKey (r : DRow) : String × String :=
  (r.symbol, r.exchange)

/-- Row comparison for the stable sort. -/
def rowLe (a b : DRow) : Prop := rowKey a ≤ rowKey b

instance : DecidableRel rowLe := fun a b =>
  inferInstanceAs (Decidable (rowKey a ≤ rowKey b))

instance : IsTotal DRow rowLe := ⟨fun a b => le_total (rowKey a) (rowKey b)⟩

instance : IsTrans DRow rowLe := ⟨fun _ _ _ h h' => le_trans h h'⟩

/-- `df.sort_values(by=["symbol", "exchange", "trading_date"], kind="mergesort")`:
a stable sort on the three-column key (insertion sort is stable, which is all
`kind="mergesort"` guarantees). -/
def sortRows (l : List DRow) : List DRow := l.insertionSort rowLe

/-- `df.drop_duplicates(subset=["symbol", "exchange", "trading_date"],
keep="last")`: a row is kept iff no later row carries the same key. -/
def dropDupKeepLast : List DRow → List DRow
  | [] => []
  | x :: xs =>
      if xs.any (fun y => decide (dupKey y = dupKey x)) then dropDupKeepLast xs
      else x :: dropDupKeepLast xs

/-- `xs.drop (xs.length - n)`: the trailing window of size at most `n`,
matching `rolling(window=n, min_periods=1)`. -/
def lastN (n : Nat) (xs : List ℚ) : List ℚ := xs.drop (xs.length - n)

/-- Arithmetic mean of a list of rationals (`0` on the empty list, which the
builder never hits: every window contains the current row). -/
def qmean (xs : List ℚ) : ℚ := xs.sum / xs.length

/-- Derived columns for one row `r`, given `grpAcc`, the earlier rows of the
same `(symbol, exchange)` group in DataFrame order:
* `prev_close` = `groupby(["symbol","exchange"])["close_price"].shift(1)`,
  i.e. the last element of `grpAcc`;
* `daily_return` = `(close - prev_close) / prev_close` when `prev_close`
  exists and is non-zero, else NaN (`np.where(valid_prev, ..., np.nan)`);
* `ma_5` / `ma_20` = `rolling(window=5/20, min_periods=1).mean()` of
  `close_price` over the group rows up to and including `r`. -/
def mkGold (grpAcc : List DRow) (r : DRow) : GoldRow :=
  let prev := grpAcc.getLast?
  let dr : Option ℚ :=
    match prev with
    | some p =>
        if p.close_price ≠ 0 then some ((r.close_price - p.close_price) / p.close_price)
        else none
    | none => none
  let closes := (grpAcc ++ [r]).map (fun x => x.close_price)
  { symbol := r.symbol, exchange := r.exchange, trading_date := r.trading_date,
    close_price := r.close_price, volume := r.volume, daily_return := dr,
    ma_5 := qmean (lastN 5 closes), ma_20 := qmean (lastN 20 closes) }

/-- Walk the deduplicated frame in order, computing the derived columns of
each row from the previously seen rows of its own `(symbol, exchange)` group
(`acc` is the list of rows already passed, in order). -/
def featRows (acc : List DRow) : List DRow → List GoldRow
  | [] => []
  | r :: rest =>
      mkGold (acc.filter (fun x => decide (grpKey x = grpKey r))) r ::
        featRows (acc ++ [r]) rest

/-- The `(symbol, exchange, trading_date)` key of a GOLD row. -/
def goldKey (g : GoldRow) : String × String × Int :=
  (g.symbol, g.exchange, g.trading_date)

/-- Sort key of the final `sort_values` over the GOLD frame. -/
def goldLexKey (g : GoldRow) : List Char ×ₗ List Char ×ₗ Int :=
  toLex (g.symbol.data, toLex (g.exchange.data, g.trading_date))

/-- GOLD row comparison for the final stable sort. -/
def goldLe (a b : GoldRow) : Prop := goldLexKey a ≤ goldLexKey b

instance : DecidableRel goldLe := fun a b =>
  inferInstanceAs (Decidable (goldLexKey a ≤ goldLexKey b))

instance : IsTotal GoldRow goldLe := ⟨fun a b => le_total (goldLexKey a) (goldLexKey b)⟩

instance : IsTrans GoldRow goldLe := ⟨fun _ _ _ h h' => le_trans h h'⟩

/-- `build_stock_price_daily(silver_df)`.  Returns the GOLD rows together
with the list of `logger.warning` messages emitted, or an error for the
`raise ValueError` on a non-datetime `trading_date` column. -/
def build_stock_price_daily (f : SilverFrame) :
    Except String (List GoldRow × List String) :=
  if f.rows.isEmpty then
    .ok ([], ["Silver DataFrame is empty. Skip building GOLD table."])
  else if !(f.hasSymbol && f.hasExchange && f.hasTradingDate &&
      f.hasClosePrice && f.hasVolume) then
    .ok ([], ["Missing required columns for GOLD build. Skip."])
  else if !f.tdIsDatetime then
    .error "Silver.trading_date must be datetime64[ns]"
  else
    let dRows := dropnaRows f.rows
    let dropped := f.rows.length - dRows.length
    let log1 :=
      if 0 < dropped then
        ["Dropped " ++ toString dropped ++ " rows missing close_price or volume"]
      else []
    let sorted := sortRows dRows
    let deduped := dropDupKeepLast sorted
    let removedDups := sorted.length - deduped.length
    let log2 :=
      if 0 < removedDups then
        ["Dropped " ++ toString removedDups ++
          " duplicate (symbol, exchange, trading_date) rows"]
      else []
    let gold := featRows [] deduped
    .ok (gold.insertionSort goldLe, log1 ++ log2)

/-- Recover the SILVER projection of a GOLD row (the five base columns, which
`mkGold` copies verbatim). -/
def baseOf (g : GoldRow) : DRow :=
  ⟨g.symbol, g.exchange, g.trading_date, g.close_price, g.volume⟩

/-- `featRows` restricted to the rows of a single `(symbol, exchange)` group:
`accG` is the list of group rows already seen, in frame order. -/
def featGroup (accG : List DRow) : List DRow → List GoldRow
  | [] => []
  | r :: rest => mkGold accG r :: featGroup (accG ++ [r]) rest

/-- The `(symbol, exchange) = (s, e)` group membership test on SILVER rows. -/
def inGroup (s e : String) (x : DRow) : Bool :=
  decide (x.symbol = s) && decide (x.exchange = e)

/-- The `(symbol, exchange) = (s, e)` group membership test on GOLD rows. -/
def inGroupG (s e : String) (g : GoldRow) : Bool :=
  decide (g.symbol = s) && decide (g.exchange = e)

instance {ε α : Type} [DecidableEq ε] [DecidableEq α] : DecidableEq (Except ε α) :=
  fun x y =>
    match x, y with
    | .ok a, .ok b =>
        if h : a = b then isTrue (by rw [h]) else isFalse (by simp [h])
    | .error a, .error b =>
        if h : a = b then isTrue (by rw [h]) else isFalse (by simp [h])
    | .ok _, .error _ => isFalse (by simp)
    | .error _, .ok _ => isFalse (by simp)

/-! ### Concrete frames used by the witnesses -/

/-- A two-day, one-symbol SILVER frame (the spec's worked scenario). -/
def Wsc : SilverFrame :=
  ⟨true, true, true, true, true, true,
   [⟨"AAA", "HOSE", 2, some 11, some 200⟩,
    ⟨"AAA", "HOSE", 1, some 10, some 100⟩]⟩

/-- The GOLD output of the builder on `Wsc`. -/
def WscGold : List GoldRow :=
  [⟨"AAA", "HOSE", 1, 10, 100, none, 10, 10⟩,
   ⟨"AAA", "HOSE", 2, 11, 200, some (1/10), 21/2, 21/2⟩]

/-- A SILVER frame with two rows sharing the full key and differing only in
`close_price` (the spec's duplicate scenario). -/
def Wdup : SilverFrame :=
  ⟨true, true, true, true, true, true,
   [⟨"AAA", "HOSE", 1, some 10, some 100⟩,
    ⟨"AAA", "HOSE", 1, some 12, some 100⟩]⟩

/-- A SILVER frame with no rows. -/
def Wempty : SilverFrame := ⟨true, true, true, true, true, true, []⟩

/-- The GOLD output of the builder on `Wdup`: one row, the later duplicate. -/
def WdupGold : List GoldRow := [⟨"AAA", "HOSE", 1, 12, 100, none, 12, 12⟩]

/-- The warnings logged by the builder on `Wdup`. -/
def WdupLogs : List String :=
  ["Dropped 1 duplicate (symbol, exchange, trading_date) rows"]

/-! ## Storage writer: `upload_bytes` retry loop

Embeds `upload_bytes` from `src/utils/s3_utils.py`.  The S3 backend is
modelled as a function `put : Nat -> Bool` giving the success of the n-th
put attempt (0-based); `time.sleep` is counted, not performed.
-/

/-- Observable outcome of `upload_bytes`: whether it returned (`ok = true`)
or raised `RuntimeError` after exhausting retries (`ok = false`), how many
`put_object` attempts were made, and how many fixed-length sleeps happened
between consecutive attempts. -/
structure UploadTrace where
  ok : Bool
  attempts : Nat
  sleeps : Nat
deriving DecidableEq

/-- The `while attempt < max_retries` loop of `upload_bytes`: `attempt` is
the current attempt index, `remaining = max_retries - attempt` the number of
loop iterations left.  On failure the loop sleeps only when another attempt
follows (`if attempt < max_retries: time.sleep(retry_sleep)` after the
increment), i.e. exactly when `remaining` is still positive. -/
def uploadLoop (put : Nat -> Bool) (attempt : Nat) : Nat -> UploadTrace
  | 0 => ⟨false, 0, 0⟩
  | n + 1 =>
      if put attempt then ⟨true, 1, 0⟩
      else
        let rest := uploadLoop put (attempt + 1) n
        ⟨rest.ok, rest.attempts + 1, rest.sleeps + (if n = 0 then 0 else 1)⟩

/-- `upload_bytes(data, bucket, key, max_retries, retry_sleep)`: run the
retry loop from attempt 0.  `ok = false` models the final
`raise RuntimeError(...)` after `max_retries` failed attempts. -/
def upload_bytes (put : Nat -> Bool) (maxRetries : Nat) : UploadTrace :=
  uploadLoop put 0 maxRetries

/-! ## Partitioned storage writer and the save layers

Embeds `upload_dataframe_to_s3` (`src/utils/s3_utils.py`) and the three layer
save routines.  Only the key computation and the pre-upload checks are
modelled; the per-object uploads themselves are assumed to succeed (their
retry behaviour is modelled separately by `upload_bytes`).  The
`uuid.uuid4().hex` file names are modelled by a name supply `names : Nat ->
String` indexed by partition position.
-/

/-- A `datetime64[ns]` timestamp: calendar date plus a time-of-day
component (`tod = 0` means midnight-normalized). -/
structure Ts where
  y : Nat
  m : Nat
  d : Nat
  tod : Nat
deriving DecidableEq

/-- Two-digit zero padding, as in `strftime("%m")` / `strftime("%d")`. -/
def pad2 (n : Nat) : String :=
  if n < 10 then "0" ++ toString n else toString n

/-- Four-digit zero padding, as in `strftime("%Y")`. -/
def pad4 (n : Nat) : String :=
  if n < 10 then "000" ++ toString n
  else if n < 100 then "00" ++ toString n
  else if n < 1000 then "0" ++ toString n
  else toString n

/-- `strftime("%Y-%m-%d")` / `date.isoformat()` of a timestamp. -/
def dateStr (t : Ts) : String :=
  pad4 t.y ++ "-" ++ pad2 t.m ++ "-" ++ pad2 t.d

/-- A DataFrame column as seen by the storage writer: its name, whether its
dtype is `datetime64[ns]`, and (for datetime columns) its values. -/
structure SCol where
  name : String
  isDatetime : Bool
  vals : List Ts
deriving DecidableEq

/-- A DataFrame as seen by the storage writer: columns and a row count
(`nrows = 0` models `df.empty`). -/
structure SFrame where
  cols : List SCol
  nrows : Nat
deriving DecidableEq

/-- `df.columns`. -/
def colNames (f : SFrame) : List String := f.cols.map (fun c => c.name)

/-- `df[c]`: the (first) column named `c`. -/
def findCol (f : SFrame) (c : String) : Option SCol :=
  f.cols.find? (fun col => decide (col.name = c))

/-- String comparison by code points (how pandas `groupby` sorts the
partition strings). -/
def strLe (a b : String) : Prop := a.data ≤ b.data

instance : DecidableRel strLe := fun a b =>
  inferInstanceAs (Decidable (a.data ≤ b.data))

instance : IsTotal String strLe := ⟨fun a b => le_total a.data b.data⟩

instance : IsTrans String strLe := ⟨fun _ _ _ h h' => le_trans h h'⟩

/-- The sorted distinct partition-date strings of a datetime column:
`df.groupby("_partition")` iterates the groups in sorted key order. -/
def partitionStrings (vals : List Ts) : List String :=
  ((vals.map dateStr).eraseDups).insertionSort strLe

/-- `upload_dataframe_to_s3(df, bucket, base_path, partition_col,
required_columns, ...)`.  Returns the list of keys uploaded before any
failure together with an optional raised error; all checks of the source
run before the first upload:
* empty DataFrame: warn and return no keys, no error;
* `required_columns` supplied and non-empty (`if required_columns:`) with a
  missing column: `ValueError`, nothing uploaded;
* `partition_col` absent: `ValueError`, nothing uploaded;
* `partition_col` not `datetime64[ns]`: `AssertionError` (asserted, never
  coerced), nothing uploaded;
* otherwise one key per distinct partition date, in `groupby` order. -/
def upload_dataframe_to_s3 (f : SFrame) (basePath partitionCol : String)
    (requiredColumns : Option (List String)) (names : Nat -> String) :
    List String × Option String :=
  if f.nrows = 0 then ([], none)
  else
    let reqFail :=
      match requiredColumns with
      | some req => !req.isEmpty && !(req.filter (fun c => decide (c ∉ colNames f))).isEmpty
      | none => false
    if reqFail then ([], some "ValueError: Missing required columns")
    else if decide (partitionCol ∉ colNames f) then
      ([], some "ValueError: Partition column not found")
    else
      match findCol f partitionCol with
      | none => ([], some "ValueError: Partition column not found")
      | some col =>
          if !col.isDatetime then
            ([], some "AssertionError: upload_dataframe_to_s3 expects datetime64")
          else
            ((partitionStrings col.vals).mapIdx (fun i p =>
              basePath ++ "/" ++ partitionCol ++ "=" ++ p ++ "/part-" ++
                names i ++ ".parquet"), none)

/-- The `_SUCCESS` marker key for a run date. -/
def successKey (basePath runDate : String) : String :=
  basePath ++ "/run_date=" ++ runDate ++ "/_SUCCESS"

/-- `df.rename(columns={src: dst})`. -/
def renameCol (f : SFrame) (src dst : String) : SFrame :=
  ⟨f.cols.map (fun c => if c.name = src then ⟨dst, c.isDatetime, c.vals⟩ else c),
   f.nrows⟩

/-- `df[c] = df[c].dt.normalize()`: zero the time-of-day of column `c`. -/
def normalizeCol (f : SFrame) (cname : String) : SFrame :=
  ⟨f.cols.map (fun c =>
      if c.name = cname then ⟨c.name, c.isDatetime, c.vals.map (fun t => ⟨t.y, t.m, t.d, 0⟩)⟩
      else c),
   f.nrows⟩

/-- The date-column candidates tried, in order, by the save layers. -/
def dateCandidates : List String := ["trading_date", "date", "time"]

/-- `save_silver_stock_price(df, bucket, base_path, region, run_date)` from
`src/load/save_silver_to_s3.py`: empty frame returns `None`; the partition
column is resolved among the candidates and renamed to `trading_date`
(never type-coerced); a non-datetime column raises; after a successful
partitioned upload the `_SUCCESS` marker is written and appended to the
returned keys. -/
def save_silver_stock_price (f : SFrame) (basePath runDate : String)
    (names : Nat -> String) : Except String (Option (List String)) :=
  if f.nrows = 0 then .ok none
  else
    match dateCandidates.find? (fun c => decide (c ∈ colNames f)) with
    | none => .error "ValueError: Missing partition column"
    | some pcol =>
        let f1 := if pcol = "trading_date" then f else renameCol f pcol "trading_date"
        match findCol f1 "trading_date" with
        | none => .error "ValueError: Partition column trading_date not found"
        | some col =>
            if !col.isDatetime then
              .error "ValueError: trading_date must be pandas datetime64"
            else
              let f2 := normalizeCol f1 "trading_date"
              match upload_dataframe_to_s3 f2 basePath "trading_date"
                  (some ["trading_date", "symbol"]) names with
              | (_, some e) => .error e
              | (keys, none) => .ok (some (keys ++ [successKey basePath runDate]))

/-- `save_raw_stock_price(df, bucket, base_path, region, run_date)` from
`src/load/save_raw_to_s3.py`: empty frame returns `[]`; requires a datetime
date column; writes one JSON object per distinct calendar date (grouping by
`series.dt.date`, chronological order) and then the `_SUCCESS` marker,
returning all keys with the marker appended last. -/
def save_raw_stock_price (f : SFrame) (basePath runDate : String) :
    Except String (List String) :=
  if f.nrows = 0 then .ok []
  else
    match dateCandidates.find? (fun c => decide (c ∈ colNames f)) with
    | none => .error "AssertionError: RAW save requires a date column"
    | some dcol =>
        match findCol f dcol with
        | none => .error "AssertionError: RAW save requires a date column"
        | some col =>
            if !col.isDatetime then
              .error "AssertionError: RAW save expects datetime64"
            else
              .ok ((partitionStrings col.vals).map (fun p =>
                  basePath ++ "/data_date=" ++ p ++ "/stock_price.json") ++
                [successKey basePath runDate])

/-- `save_gold_stock_price_daily(df, bucket, base_path, partition_col,
region)` from `src/load/save_gold_to_s3.py`: empty frame returns `None`;
missing partition column raises; otherwise it returns exactly the keys of
the partitioned upload — this function writes no `_SUCCESS` marker. -/
def save_gold_stock_price_daily (f : SFrame) (basePath partitionCol : String)
    (names : Nat -> String) : Except String (Option (List String)) :=
  if f.nrows = 0 then .ok none
  else if decide (partitionCol ∉ colNames f) then
    .error "ValueError: Partition column not found in DataFrame"
  else
    match upload_dataframe_to_s3 f basePath partitionCol
        (some ["symbol", "trading_date", "close_price", "volume"]) names with
    | (_, some e) => .error e
    | (keys, none) => .ok (some keys)

/-- Deterministic stand-in for the `uuid4().hex` name supply. -/
def names0 : Nat -> String := fun i => "f" ++ toString i

/-- A one-row SILVER-shaped frame for the save-layer witnesses. -/
def WS : SFrame :=
  ⟨[⟨"trading_date", true, [⟨2024, 1, 2, 0⟩]⟩, ⟨"symbol", false, []⟩], 1⟩

/-- A one-row GOLD-shaped frame for the save-layer witnesses. -/
def WG : SFrame :=
  ⟨[⟨"symbol", false, []⟩, ⟨"trading_date", true, [⟨2024, 1, 2, 0⟩]⟩,
    ⟨"close_price", false, []⟩, ⟨"volume", false, []⟩], 1⟩

/-- A one-row frame whose column `a` is not a datetime column. -/
def W8 : SFrame := ⟨[⟨"a", false, []⟩], 1⟩

/-- A one-row frame whose `trading_date` column is datetime-typed but not
midnight-normalized (time-of-day 5): a datetime, not a pure date. -/
def W8b : SFrame :=
  ⟨[⟨"trading_date", true, [⟨2024, 1, 2, 5⟩]⟩, ⟨"symbol", false, []⟩], 1⟩

/-! ## Generic schema validator

Embeds `validate_dataframe_schema` from
`src/transform/validate_silver_schema.py`.  A cell value is text, a number,
or a timestamp; the column dtype mirrors the pandas dtype probes used by the
validator (`is_object_dtype` / `is_string_dtype` / `is_float_dtype` /
`is_integer_dtype` / `is_datetime64_any_dtype`).  Each `_handle(msg, strict)`
call site becomes a `VStep.handle`; the two spots where the source can raise
regardless of mode — `df.duplicated(subset=pk_cols)` with a primary-key
column absent from the frame (`KeyError`), and `df[col].dropna() < 0` on
non-numeric data (`TypeError`) — become `VStep.hardFail`.
-/

/-- Value of `int(digit-string)`; `none` when a non-digit appears. -/
def digitsToNat (cs : List Char) : Option Nat :=
  cs.foldl
    (fun acc c =>
      match acc with
      | none => none
      | some n => if c.isDigit then some (n * 10 + (c.toNat - 48)) else none)
    (some 0)

/-- A model of `pd.to_numeric(value, errors="coerce")` on a text cell:
an optional minus sign, a non-empty integer part, an optional fraction.
Anything else coerces to NaN (`none`). -/
def parseNum (s : String) : Option ℚ :=
  let cs := s.data
  let neg : Bool := match cs with
    | c :: _ => c = '-'
    | [] => false
  let cs2 := if neg then cs.tail else cs
  let ip := cs2.takeWhile (fun c => decide (c ≠ '.'))
  let rest := cs2.dropWhile (fun c => decide (c ≠ '.'))
  let fs := rest.tail
  if ip.isEmpty then none
  else if rest.length > 1 && fs.isEmpty then none
  else
    match digitsToNat ip, digitsToNat fs with
    | some n, some fn =>
        let q : ℚ := (n : ℚ) + (fn : ℚ) / ((10 : ℚ) ^ fs.length)
        some (if neg then -q else q)
    | _, _ => none

/-- A non-null cell value. -/
inductive VVal where
  | vstr (s : String)
  | vnum (q : ℚ)
  | vdate (t : Ts)
deriving DecidableEq

/-- The pandas dtype category of a column. -/
inductive VDtype where
  | objD
  | strD
  | floatD
  | intD
  | dtD
  | otherD
deriving DecidableEq

/-- A DataFrame column as seen by the validator. -/
structure VCol where
  name : String
  dtype : VDtype
  cells : List (Option VVal)
deriving DecidableEq

/-- A DataFrame as seen by the validator. -/
structure VFrame where
  cols : List VCol
  nrows : Nat
deriving DecidableEq

/-- One schema column rule: `{type: ..., nullable: ...}` (nullable defaults
to true in the source via `rules.get("nullable", True)`). -/
structure ColRule where
  ty : String
  nullable : Bool
deriving DecidableEq

/-- A `SchemaContract` as loaded from the YAML file: `columns` (ordered),
`primary_key`, `partition_by` and the two `quality_checks` lists. -/
structure Schema where
  columns : List (String × ColRule)
  primary_key : List String
  partition_by : List String
  qualityNotNull : List String
  qualityPositive : List String
deriving DecidableEq

/-- `df.columns` for the validator frame. -/
def vcolNames (df : VFrame) : List String := df.cols.map (fun c => c.name)

/-- `df[c]` for the validator frame. -/
def vfind (df : VFrame) (c : String) : Option VCol :=
  df.cols.find? (fun col => decide (col.name = c))

/-- `pd.to_numeric(value, errors="coerce")` on one cell value. -/
def cellNum : VVal -> Option ℚ
  | .vnum q => some q
  | .vstr s => parseNum s
  | .vdate _ => none

/-- `series.isnull().any()`. -/
def hasNull (col : VCol) : Bool := col.cells.any (fun c => c.isNone)

/-- `_is_integer_valued(series)`: drop nulls; empty or integer dtype pass;
float dtype passes iff every value is integral (`(s % 1 == 0).all()`);
otherwise coerce with `pd.to_numeric(..., errors="coerce")` and require no
NaN and all integral. -/
def isIntegerValued (col : VCol) : Bool :=
  let s := col.cells.filterMap id
  if s.isEmpty then true
  else if col.dtype = .intD then true
  else if col.dtype = .floatD then
    s.all (fun v =>
      match v with
      | .vnum q => decide (q.den = 1)
      | _ => true)
  else
    let co := s.map cellNum
    if co.any (fun o => o.isNone) then false
    else (co.filterMap id).all (fun q => decide (q.den = 1))

/-- `series.dt.normalize().equals(series)`: every timestamp cell has zero
time-of-day (`NaT` cells compare equal to themselves). -/
def dateNormalized (col : VCol) : Bool :=
  col.cells.all (fun c =>
    match c with
    | some (.vdate t) => decide (t.tod = 0)
    | _ => true)

/-- `is_object_dtype or is_string_dtype`. -/
def stringLikeD : VDtype -> Bool
  | .objD => true
  | .strD => true
  | _ => false

/-- `is_float_dtype or is_integer_dtype`. -/
def floatLikeD : VDtype -> Bool
  | .floatD => true
  | .intD => true
  | _ => false

/-- `is_datetime64_any_dtype`. -/
def dtLikeD : VDtype -> Bool
  | .dtD => true
  | _ => false

/-- `series < 0` needs numeric values; anything else raises `TypeError`. -/
def isNumericCell : VVal -> Bool
  | .vnum _ => true
  | _ => false

/-- One event of a validator run: a `_handle(msg, strict)` call, or an
exception raised regardless of mode. -/
inductive VStep where
  | handle (msg : String)
  | hardFail (msg : String)
deriving DecidableEq

/-- Whether a step is a `_handle` call (as opposed to an unconditional
raise). -/
def isHandle : VStep -> Bool
  | .handle _ => true
  | .hardFail _ => false

/-- Section 1 of the validator: the missing-columns check (one `_handle`
for the whole set-difference, when non-empty). -/
def missingColsSteps (df : VFrame) (schema : Schema) : List VStep :=
  let missing := (schema.columns.map Prod.fst).filter
    (fun c => decide (c ∉ vcolNames df))
  if missing.isEmpty then []
  else [.handle ("Missing columns: " ++ String.intercalate ", " missing)]

/-- Section 1.b: one `_handle` per missing partition column. -/
def partitionSteps (df : VFrame) (pcols : List String) : List VStep :=
  pcols.filterMap (fun p =>
    if decide (p ∈ vcolNames df) then none
    else some (.handle ("Missing partition column from schema: " ++ p)))

/-- Section 2, for one schema column: skip when absent from the frame;
otherwise the nullable check followed by the tolerant type check. -/
def typeSteps (df : VFrame) (cname : String) (rule : ColRule) : List VStep :=
  match vfind df cname with
  | none => []
  | some col =>
      (if rule.nullable = false && hasNull col then
        [.handle ("Column " ++ cname ++ " contains NULL but nullable=false")]
       else []) ++
      (if rule.ty = "string" then
        (if stringLikeD col.dtype then []
         else [.handle (cname ++ " expected string-like type")])
       else if rule.ty = "float" then
        (if floatLikeD col.dtype then []
         else [.handle (cname ++ " expected float-like type")])
       else if rule.ty = "int" || rule.ty = "bigint" then
        (if isIntegerValued col then []
         else [.handle (cname ++ " expected integer-valued data")])
       else if rule.ty = "date" then
        (if !dtLikeD col.dtype then [.handle (cname ++ " must be datetime64 (date)")]
         else if dateNormalized col then []
         else [.handle (cname ++ " must be normalized to midnight (date semantics)")])
       else if rule.ty = "timestamp" then
        (if dtLikeD col.dtype then []
         else [.handle (cname ++ " must be datetime64 (timestamp)")])
       else [.handle ("Unknown schema type for column " ++ cname)])

/-- Section 3, null checks: one `_handle` per present primary-key column
containing nulls. -/
def pkNullSteps (df : VFrame) (pks : List String) : List VStep :=
  pks.filterMap (fun c =>
    match vfind df c with
    | some col =>
        if hasNull col then
          some (.handle ("Primary key column " ++ c ++ " contains NULL"))
        else none
    | none => none)

/-- Row `i`'s tuple of primary-key cell values (used by `df.duplicated`). -/
def pkTuple (df : VFrame) (pks : List String) (i : Nat) : List (Option VVal) :=
  pks.map (fun c =>
    match vfind df c with
    | some col => col.cells.getD i none
    | none => none)

/-- `df.duplicated(subset=pk_cols).any()`. -/
def pkDuplicated (df : VFrame) (pks : List String) : Bool :=
  !decide (((List.range df.nrows).map (pkTuple df pks)).Nodup)

/-- Section 3: when a primary key is declared, the per-column null checks,
then the duplicate check — which raises `KeyError` in both modes when a
primary-key column is absent from the frame (`df.duplicated` with an
unknown label). -/
def pkSteps (df : VFrame) (pks : List String) : List VStep :=
  if pks.isEmpty then []
  else
    pkNullSteps df pks ++
    (if pks.any (fun c => decide (c ∉ vcolNames df)) then
      [.hardFail "KeyError: primary key column missing"]
     else if pkDuplicated df pks then [.handle "Duplicate primary key found"]
     else [])

/-- Section 4, `not_null` quality checks. -/
def notNullSteps (df : VFrame) (cols : List String) : List VStep :=
  cols.filterMap (fun c =>
    match vfind df c with
    | some col =>
        if hasNull col then
          some (.handle ("Quality check failed: " ++ c ++ " contains NULL"))
        else none
    | none => none)

/-- Section 4, `positive_values` quality checks: `df[col].dropna() < 0`
raises `TypeError` in both modes on non-numeric data, and otherwise flags
strictly negative values. -/
def positiveSteps (df : VFrame) (cols : List String) : List VStep :=
  cols.filterMap (fun c =>
    match vfind df c with
    | some col =>
        let s := col.cells.filterMap id
        if s.any (fun v => !isNumericCell v) then
          some (.hardFail ("TypeError: comparison with non-numeric in " ++ c))
        else if s.any (fun v =>
            match v with
            | .vnum q => decide (q < 0)
            | _ => false) then
          some (.handle ("Quality check failed: " ++ c ++ " contains negative values"))
        else none
    | none => none)

/-- The full ordered event list of one validator run on a non-empty frame. -/
def allSteps (df : VFrame) (schema : Schema) : List VStep :=
  missingColsSteps df schema ++
  partitionSteps df schema.partition_by ++
  (schema.columns.map (fun p => typeSteps df p.1 p.2)).flatten ++
  pkSteps df schema.primary_key ++
  notNullSteps df schema.qualityNotNull ++
  positiveSteps df schema.qualityPositive

/-- Execute the events: `_handle` raises the message in strict mode and
logs it in permissive mode; a hard failure raises in either mode. -/
def runSteps (strict : Bool) (log : List String) : List VStep -> Except String (List String)
  | [] => .ok log
  | .handle m :: rest =>
      if strict then .error m else runSteps strict (log ++ [m]) rest
  | .hardFail m :: _ => .error m

/-- `validate_dataframe_schema(df, schema_path, strict)`: an empty frame is
itself handled by `_handle` and returns immediately; otherwise the checks
run in source order. -/
def validate_dataframe_schema (df : VFrame) (schema : Schema) (strict : Bool) :
    Except String (List String) :=
  if df.nrows = 0 then
    (if strict then .error "DataFrame is empty" else .ok ["DataFrame is empty"])
  else runSteps strict [] (allSteps df schema)

/-- The ordered `_handle` messages of a run (what permissive mode logs). -/
def handleMsgs (df : VFrame) (schema : Schema) : List String :=
  (allSteps df schema).filterMap (fun st =>
    match st with
    | .handle m => some m
    | .hardFail _ => none)

/-- Frame for the C6 counterexample: one float column `x`. -/
def VFrameCE : VFrame := ⟨[⟨"x", .floatD, [some (.vnum 1)]⟩], 1⟩

/-- Schema for the C6 counterexample: expects a column `a` that the frame
lacks and declares it the primary key. -/
def SchemaCE : Schema := ⟨[("a", ⟨"string", true⟩)], ["a"], [], [], []⟩

/-- Frame for the C6 amended-claim witness: one float column `v` with a
null cell. -/
def VFrameW : VFrame := ⟨[⟨"v", .floatD, [none]⟩], 1⟩

/-- Schema for the C6 amended-claim witness: `v` must be a non-nullable
float. -/
def SchemaW : Schema := ⟨[("v", ⟨"float", false⟩)], [], [], [], []⟩

/-! ## SILVER cleaning step: `clean_stock_price`

Embeds `clean_stock_price` from `src/transform/clean_stock_price.py`, to the
extent the volume invariant needs it.  Numeric raw cells are modelled after
`pd.to_numeric(..., errors="coerce")` as `Option ℚ` (`none` = missing or
unparseable); the resolved date column's cells are `Option Ts` (`none` =
`NaT` in the datetime branch, unparseable in the object branch).
-/

/-- One raw input row, restricted to the fields the cleaner reads. -/
structure RawRow where
  symbol : Option String
  dateVal : Option Ts
  close : Option ℚ
  volume : Option ℚ
deriving DecidableEq

/-- A raw DataFrame: column-presence flags, the dtype of the resolved date
column, and the rows. -/
structure RawFrame where
  hasSymbol : Bool
  hasTime : Bool
  hasDate : Bool
  hasClose : Bool
  hasVolume : Bool
  dateIsDatetime : Bool
  rows : List RawRow
deriving DecidableEq

/-- A cleaned (SILVER) row. -/
structure CleanRow where
  symbol : String
  trading_date : Ts
  close_price : ℚ
  volume : ℚ
  exchange : String
  source : String
deriving DecidableEq

/-- `.dt.normalize()` on one timestamp. -/
def normTs (t : Ts) : Ts := ⟨t.y, t.m, t.d, 0⟩

/-- The volume treatment of the cleaner:
`pd.to_numeric(df["volume"], errors="coerce").fillna(0)` followed by
`df.loc[df["volume"] < 0, "volume"] = 0`. -/
def cleanVolume (v : Option ℚ) : ℚ :=
  let v0 := v.getD 0
  if v0 < 0 then 0 else v0

/-- `clean_stock_price(df, exchange, source)`:
* empty input returns an empty frame;
* no `time`/`date` column raises `ValueError`;
* in the non-datetime branch, any unparseable `trading_date` raises;
  otherwise dates are parsed and normalized to midnight (in the datetime
  branch `NaT` cells survive to the final `dropna`);
* `volume` missing as a column raises (`df.get("volume")` yields a scalar
  NaN whose `.fillna` call fails); per-row missing or unparseable volumes
  become 0 and negative volumes are clamped to 0;
* `dropna(subset=["symbol", "trading_date", "close_price"])` raises
  `KeyError` when `symbol` or the close column is absent, and otherwise
  drops only rows with a null in those three columns — never because of
  `volume`. -/
def clean_stock_price (f : RawFrame) (exchange source : String) :
    Except String (List CleanRow) :=
  if f.rows.isEmpty then .ok []
  else if !(f.hasTime || f.hasDate) then
    .error "ValueError: Neither time nor date column found in raw data"
  else if !f.dateIsDatetime && f.rows.any (fun r => r.dateVal.isNone) then
    .error "ValueError: Unparseable trading_date values"
  else if !f.hasVolume then
    .error "AttributeError: float object has no attribute fillna"
  else if !f.hasSymbol then
    .error "KeyError: symbol"
  else if !f.hasClose then
    .error "KeyError: close_price"
  else
    .ok (f.rows.filterMap (fun r =>
      match r.symbol, r.dateVal.map normTs, r.close with
      | some s, some dte, some c =>
          some ⟨s, dte, c, cleanVolume r.volume, exchange, source⟩
      | _, _, _ => none))

/-- Raw frame for the C10 witness: one row with a missing volume, one with a
negative volume, one dropped for a null close. -/
def WRaw : RawFrame :=
  ⟨true, true, false, true, true, true,
   [⟨some "AAA", some ⟨2024, 1, 2, 0⟩, some 10, none⟩,
    ⟨some "BBB", some ⟨2024, 1, 2, 0⟩, some 11, some (-5)⟩,
    ⟨some "CCC", some ⟨2024, 1, 2, 0⟩, none, some 7⟩]⟩

/-- The cleaned output on `WRaw` (the null-close row is dropped; the
missing and negative volumes become 0). -/
def WClean : List CleanRow :=
  [⟨"AAA", ⟨2024, 1, 2, 0⟩, 10, 0, "HOSE", "vnstock"⟩,
   ⟨"BBB", ⟨2024, 1, 2, 0⟩, 11, 0, "HOSE", "vnstock"⟩]

/-! ## Helper lemmas for the feature builder -/

@[simp] theorem mkGold_symbol (a : List DRow) (r : DRow) :
    (mkGold a r).symbol = r.symbol := rfl

@[simp] theorem mkGold_exchange (a : List DRow) (r : DRow) :
    (mkGold a r).exchange = r.exchange := rfl

@[simp] theorem mkGold_trading_date (a : List DRow) (r : DRow) :
    (mkGold a r).trading_date = r.trading_date := rfl

@[simp] theorem mkGold_close_price (a : List DRow) (r : DRow) :
    (mkGold a r).close_price = r.close_price := rfl

@[simp] theorem mkGold_volume (a : List DRow) (r : DRow) :
    (mkGold a r).volume = r.volume := rfl

@[simp] theorem baseOf_mkGold (a : List DRow) (r : DRow) :
    baseOf (mkGold a r) = r := rfl

theorem mkGold_daily_return (a : List DRow) (r : DRow) :
    (mkGold a r).daily_return =
      match a.getLast? with
      | some p =>
          if p.close_price ≠ 0 then
            some ((r.close_price - p.close_price) / p.close_price)
          else none
      | none => none := rfl

theorem mkGold_ma_5 (a : List DRow) (r : DRow) :
    (mkGold a r).ma_5 = qmean (lastN 5 ((a ++ [r]).map (fun x => x.close_price))) := rfl

theorem mkGold_ma_20 (a : List DRow) (r : DRow) :
    (mkGold a r).ma_20 = qmean (lastN 20 ((a ++ [r]).map (fun x => x.close_price))) := rfl

theorem featRows_map_baseOf (acc : List DRow) (l : List DRow) :
    (featRows acc l).map baseOf = l := by
  induction l generalizing acc with
  | nil => rfl
  | cons r rest ih => simp [featRows, ih]

theorem featGroup_map_baseOf (a : List DRow) (l : List DRow) :
    (featGroup a l).map baseOf = l := by
  induction l generalizing a with
  | nil => rfl
  | cons r rest ih => simp [featGroup, ih]

theorem featGroup_length (a : List DRow) (l : List DRow) :
    (featGroup a l).length = l.length := by
  have := congrArg List.length (featGroup_map_baseOf a l)
  simpa using this

/-- Filtering the output of `featRows` to one `(symbol, exchange)` group
equals running the single-group recursion on the correspondingly filtered
input: the `groupby` semantics of the builder. -/
theorem featRows_filter_group (s e : String) (l : List DRow) (acc : List DRow) :
    (featRows acc l).filter (inGroupG s e) =
      featGroup (acc.filter (inGroup s e)) (l.filter (inGroup s e)) := by
  induction l generalizing acc with
  | nil => rfl
  | cons r rest ih =>
      have hbase : ∀ a : List DRow, inGroupG s e (mkGold a r) = inGroup s e r := by
        intro a
        simp [inGroupG, inGroup]
      by_cases hr : inGroup s e r = true
      · have hs : r.symbol = s := by
          simp only [inGroup, Bool.and_eq_true, decide_eq_true_eq] at hr
          exact hr.1
        have he : r.exchange = e := by
          simp only [inGroup, Bool.and_eq_true, decide_eq_true_eq] at hr
          exact hr.2
        have hpred : (fun x => decide (grpKey x = grpKey r)) = inGroup s e := by
          funext x
          simp [grpKey, inGroup, Prod.ext_iff, hs, he]
        rw [featRows, List.filter_cons, hbase, if_pos hr, hpred, ih,
          List.filter_cons, if_pos hr]
        rw [featGroup, List.filter_append, List.filter_cons, if_pos hr]
        simp
      · have hr' : inGroup s e r = false := by
          simpa using hr
        rw [featRows, List.filter_cons, hbase, hr']
        simp only [Bool.false_eq_true, if_neg, ite_false]
        rw [ih, List.filter_cons, hr']
        simp only [Bool.false_eq_true, ite_false]
        rw [List.filter_append, List.filter_cons, hr']
        simp

theorem featGroup_getElem? (a : List DRow) (l : List DRow) (j : Nat) :
    (featGroup a l)[j]? = l[j]?.map (fun r => mkGold (a ++ l.take j) r) := by
  induction l generalizing a j with
  | nil => simp [featGroup]
  | cons r rest ih =>
      cases j with
      | zero => simp [featGroup]
      | succ j =>
          rw [featGroup]
          simp only [List.getElem?_cons_succ, List.take_succ_cons, ih]
          simp [List.append_assoc]

theorem dropDupKeepLast_sublist (l : List DRow) : List.Sublist (dropDupKeepLast l) l := by
  induction l with
  | nil => exact List.Sublist.refl []
  | cons x xs ih =>
      rw [dropDupKeepLast]
      by_cases h : xs.any (fun y => decide (dupKey y = dupKey x)) = true
      · rw [if_pos h]
        exact ih.cons x
      · rw [if_neg h]
        exact ih.cons₂ x

theorem mem_dropDupKeepLast_sub {l : List DRow} {r : DRow} :
    r ∈ dropDupKeepLast l → r ∈ l :=
  fun h => (dropDupKeepLast_sublist l).mem h

/-- Deduplication keeps at most one row per `(symbol, exchange, trading_date)`
key: the kept keys are pairwise distinct. -/
theorem dropDupKeepLast_keys_nodup (l : List DRow) :
    ((dropDupKeepLast l).map dupKey).Nodup := by
  induction l with
  | nil => simp [dropDupKeepLast]
  | cons x xs ih =>
      rw [dropDupKeepLast]
      by_cases h : xs.any (fun y => decide (dupKey y = dupKey x)) = true
      · rw [if_pos h]
        exact ih
      · rw [if_neg h]
        simp only [List.map_cons, List.nodup_cons]
        refine ⟨?_, ih⟩
        intro hmem
        apply h
        rw [List.any_eq_true]
        obtain ⟨y, hy, hkey⟩ := List.mem_map.mp hmem
        exact ⟨y, mem_dropDupKeepLast_sub hy, by simp [hkey]⟩

/-- Deduplication keeps exactly the last-occurring row of each key class:
filtering the deduplicated list by a key yields the last row of the original
list that carries that key. -/
theorem dropDupKeepLast_filter (l : List DRow) (k : String × String × Int) :
    (dropDupKeepLast l).filter (fun r => decide (dupKey r = k)) =
      ((l.filter (fun r => decide (dupKey r = k))).getLast?).toList := by
  induction l with
  | nil => simp [dropDupKeepLast]
  | cons x xs ih =>
      rw [dropDupKeepLast]
      by_cases hx : dupKey x = k
      · have hxd : (decide (dupKey x = k)) = true := by simp [hx]
        by_cases h : xs.any (fun y => decide (dupKey y = dupKey x)) = true
        · rw [if_pos h, ih]
          obtain ⟨y, hy, hyk⟩ := List.any_eq_true.mp h
          have hyk' : dupKey y = k := by
            simp only [decide_eq_true_eq] at hyk
            rw [hyk, hx]
          have hymem : y ∈ xs.filter (fun r => decide (dupKey r = k)) :=
            List.mem_filter.mpr ⟨hy, by simp [hyk']⟩
          rw [List.filter_cons]
          simp only [hxd, if_true]
          cases hfl : xs.filter (fun r => decide (dupKey r = k)) with
          | nil =>
              rw [hfl] at hymem
              exact absurd hymem (List.not_mem_nil y)
          | cons z zs =>
              rw [List.getLast?_cons_cons]
        · have hnil : xs.filter (fun r => decide (dupKey r = k)) = [] := by
            rw [List.filter_eq_nil_iff]
            intro y hy hyk
            apply h
            rw [List.any_eq_true]
            simp only [decide_eq_true_eq] at hyk
            exact ⟨y, hy, by simp [hyk, hx]⟩
          rw [if_neg h, List.filter_cons, List.filter_cons]
          simp only [hxd, if_true]
          rw [ih, hnil]
          simp
      · have hxd : (decide (dupKey x = k)) = false := by simp [hx]
        by_cases h : xs.any (fun y => decide (dupKey y = dupKey x)) = true
        · rw [if_pos h, ih, List.filter_cons]
          simp only [hxd, Bool.false_eq_true, ite_false]
        · rw [if_neg h, List.filter_cons, List.filter_cons]
          simp only [hxd, Bool.false_eq_true, ite_false]
          exact ih

theorem featRows_map_goldLexKey (acc : List DRow) (l : List DRow) :
    (featRows acc l).map goldLexKey = l.map rowKey := by
  conv_rhs => rw [← featRows_map_baseOf acc l]
  rw [List.map_map]
  rfl

theorem featRows_map_goldKey (acc : List DRow) (l : List DRow) :
    (featRows acc l).map goldKey = l.map dupKey := by
  conv_rhs => rw [← featRows_map_baseOf acc l]
  rw [List.map_map]
  rfl

/-- `featRows` preserves sortedness: the GOLD rows inherit the key order of
the deduplicated SILVER rows. -/
theorem featRows_sorted {l : List DRow} (acc : List DRow) (h : List.Sorted rowLe l) :
    List.Sorted goldLe (featRows acc l) := by
  have hmap : List.Pairwise (fun a b : List Char ×ₗ List Char ×ₗ Int => a ≤ b)
      ((featRows acc l).map goldLexKey) := by
    rw [featRows_map_goldLexKey]
    exact List.pairwise_map.mpr h
  have h2 := List.pairwise_map.mp hmap
  exact h2

/-- Characterization of `build_stock_price_daily` on its main branch: the
result is the feature rows of the deduplicated, sorted, NaN-dropped input
(the final stable re-sort is the identity, the frame being already sorted),
plus the two conditional warnings. -/
theorem build_main (f : SilverFrame)
    (h1 : f.rows.isEmpty = false)
    (h2 : (f.hasSymbol && f.hasExchange && f.hasTradingDate && f.hasClosePrice &&
      f.hasVolume) = true)
    (h3 : f.tdIsDatetime = true) :
    build_stock_price_daily f =
      .ok (featRows [] (dropDupKeepLast (sortRows (dropnaRows f.rows))),
        (if 0 < f.rows.length - (dropnaRows f.rows).length then
           ["Dropped " ++ toString (f.rows.length - (dropnaRows f.rows).length) ++
             " rows missing close_price or volume"] else []) ++
        (if 0 < (sortRows (dropnaRows f.rows)).length -
             (dropDupKeepLast (sortRows (dropnaRows f.rows))).length then
           ["Dropped " ++ toString ((sortRows (dropnaRows f.rows)).length -
             (dropDupKeepLast (sortRows (dropnaRows f.rows))).length) ++
             " duplicate (symbol, exchange, trading_date) rows"] else [])) := by
  have hsorted : List.Sorted rowLe (sortRows (dropnaRows f.rows)) :=
    List.sorted_insertionSort rowLe (dropnaRows f.rows)
  have hdsorted : List.Sorted rowLe (dropDupKeepLast (sortRows (dropnaRows f.rows))) :=
    List.Pairwise.sublist (dropDupKeepLast_sublist _) hsorted
  have hgsorted : List.Sorted goldLe
      (featRows [] (dropDupKeepLast (sortRows (dropnaRows f.rows)))) :=
    featRows_sorted [] hdsorted
  rw [build_stock_price_daily, if_neg (by simp [h1]), if_neg (by simp [h2]),
    if_neg (by simp [h3])]
  simp only [hgsorted.insertionSort_eq]

/-- Any `.ok` result of the builder is either the trivial empty result (empty
input or missing columns) or the main-branch result. -/
theorem build_ok_cases (f : SilverFrame) (out : List GoldRow) (logs : List String)
    (h : build_stock_price_daily f = .ok (out, logs)) :
    out = [] ∨
      out = featRows [] (dropDupKeepLast (sortRows (dropnaRows f.rows))) := by
  by_cases h1 : f.rows.isEmpty
  · left
    rw [build_stock_price_daily, if_pos h1] at h
    exact (Prod.mk.injEq _ _ _ _ ▸ Except.ok.inj h).1.symm
  · by_cases h2 : (f.hasSymbol && f.hasExchange && f.hasTradingDate &&
        f.hasClosePrice && f.hasVolume) = true
    · by_cases h3 : f.tdIsDatetime = true
      · right
        rw [build_main f (by simpa using h1) h2 h3] at h
        exact (Prod.mk.injEq _ _ _ _ ▸ Except.ok.inj h).1.symm
      · exfalso
        rw [build_stock_price_daily, if_neg (by simpa using h1), if_neg (by simp [h2]),
          if_pos (by simp [Bool.eq_false_iff.mpr h3])] at h
        exact Except.noConfusion h
    · left
      rw [build_stock_price_daily, if_neg (by simpa using h1),
        if_pos (by simp [Bool.eq_false_iff.mpr h2])] at h
      exact (Prod.mk.injEq _ _ _ _ ▸ Except.ok.inj h).1.symm

/-! ## Claim theorems: feature builder -/

/-- C9: for every input that is empty (zero rows) or is missing one of the
required columns `{symbol, exchange, trading_date, close_price, volume}`,
the feature builder returns an empty result together with a single logged
warning, and does not raise an exception. -/
theorem build_empty_or_missing_returns_empty (f : SilverFrame)
    (h : f.rows = [] ∨ (f.hasSymbol && f.hasExchange && f.hasTradingDate &&
      f.hasClosePrice && f.hasVolume) = false) :
    build_stock_price_daily f =
        .ok ([], ["Silver DataFrame is empty. Skip building GOLD table."]) ∨
      build_stock_price_daily f =
        .ok ([], ["Missing required columns for GOLD build. Skip."]) := by
  by_cases he : f.rows.isEmpty
  · left
    rw [build_stock_price_daily, if_pos he]
  · right
    rcases h with h | h
    · exact absurd (by simp [h] : f.rows.isEmpty = true) he
    · rw [build_stock_price_daily, if_neg he, if_pos (by simp [h])]

/-- Witness for C9 at the empty frame. -/
theorem build_empty_or_missing_returns_empty_witness :
    (Wempty.rows = [] ∨ (Wempty.hasSymbol && Wempty.hasExchange &&
      Wempty.hasTradingDate && Wempty.hasClosePrice && Wempty.hasVolume) = false) ∧
    (build_stock_price_daily Wempty =
        .ok ([], ["Silver DataFrame is empty. Skip building GOLD table."]) ∨
      build_stock_price_daily Wempty =
        .ok ([], ["Missing required columns for GOLD build. Skip."])) :=
  ⟨Or.inl rfl, build_empty_or_missing_returns_empty Wempty (Or.inl rfl)⟩

/-- C3: every `.ok` output of the feature builder has pairwise-distinct
`(symbol, exchange, trading_date)` key triples. -/
theorem build_output_keys_unique (f : SilverFrame) (out : List GoldRow)
    (logs : List String) (h : build_stock_price_daily f = .ok (out, logs)) :
    out.Pairwise (fun a b => goldKey a ≠ goldKey b) := by
  rcases build_ok_cases f out logs h with hout | hout
  · subst hout
    exact List.Pairwise.nil
  · subst hout
    have hnodup := dropDupKeepLast_keys_nodup (sortRows (dropnaRows f.rows))
    rw [← featRows_map_goldKey [] (dropDupKeepLast (sortRows (dropnaRows f.rows)))]
      at hnodup
    have h2 := List.pairwise_map.mp hnodup
    exact h2

unseal Rat.add Rat.sub Rat.mul Rat.inv in
/-- Witness for C3 at the two-day scenario frame. -/
theorem build_output_keys_unique_witness :
    WscGold.Pairwise (fun a b => goldKey a ≠ goldKey b) :=
  build_output_keys_unique Wsc WscGold [] (by decide)

/-! ## Window lemmas for C1 and C2 -/

theorem getLast?_take_eq {α : Type} (l : List α) (j : Nat) (h : j ≤ l.length) :
    (l.take j).getLast? = if j = 0 then none else l[j - 1]? := by
  cases j with
  | zero => simp
  | succ n =>
      rw [List.getLast?_eq_getElem?]
      have hlen : (l.take (n + 1)).length = n + 1 := by
        rw [List.length_take]
        omega
      rw [hlen]
      simp only [Nat.succ_sub_one, Nat.add_eq_zero, Nat.succ_ne_zero, and_false,
        if_false]
      exact List.getElem?_take_of_lt (Nat.lt_succ_self n)

theorem featGroup_map_close (a : List DRow) (l : List DRow) :
    (featGroup a l).map (fun g => g.close_price) = l.map (fun r => r.close_price) := by
  conv_rhs => rw [← featGroup_map_baseOf a l]
  rw [List.map_map]
  rfl

/-- The filtered GOLD output of the main branch, as a single-group
`featGroup` run over the filtered deduplicated rows. -/
theorem build_filter_eq_featGroup (f : SilverFrame) (s e : String) :
    ((featRows [] (dropDupKeepLast (sortRows (dropnaRows f.rows)))).filter
        (inGroupG s e)) =
      featGroup []
        ((dropDupKeepLast (sortRows (dropnaRows f.rows))).filter (inGroup s e)) := by
  rw [featRows_filter_group]
  rfl

/-- C1: in the feature builder's output, within every `(symbol, exchange)`
group, the row at group position `j` has `daily_return` equal to
`(close_price - prev_close) / prev_close` where `prev_close` is the prior
group row's `close_price`, whenever that prior row exists and its close is
non-zero, and null (`none`) otherwise; in particular the first row of every
group (`j = 0`) has null `daily_return`. -/
theorem build_daily_return_spec (f : SilverFrame) (out : List GoldRow)
    (logs : List String) (h : build_stock_price_daily f = .ok (out, logs))
    (s e : String) (j : Nat) (gj gprev : GoldRow)
    (hgj : (out.filter (inGroupG s e))[j]? = some gj)
    (hprev : (out.filter (inGroupG s e))[j - 1]? = some gprev) :
    gj.daily_return =
      if j = 0 then none
      else if gprev.close_price = 0 then none
      else some ((gj.close_price - gprev.close_price) / gprev.close_price) := by
  rcases build_ok_cases f out logs h with hout | hout
  · subst hout
    simp at hgj
  · subst hout
    rw [build_filter_eq_featGroup] at hgj hprev
    set lg := (dropDupKeepLast (sortRows (dropnaRows f.rows))).filter (inGroup s e)
      with hlg
    rw [featGroup_getElem?] at hgj hprev
    try simp only [List.nil_append] at hgj hprev
    cases hrj : lg[j]? with
    | none => rw [hrj] at hgj; exact absurd hgj (by simp)
    | some rj =>
        rw [hrj] at hgj
        simp only [Option.map_some', Option.some.injEq] at hgj
        cases hrp : lg[j - 1]? with
        | none => rw [hrp] at hprev; exact absurd hprev (by simp)
        | some rp =>
            rw [hrp] at hprev
            simp only [Option.map_some', Option.some.injEq] at hprev
            have hjlt : j < lg.length := (List.getElem?_eq_some_iff.mp hrj).1
            have hlast : (lg.take j).getLast? = if j = 0 then none else lg[j - 1]? :=
              getLast?_take_eq lg j (Nat.le_of_lt hjlt)
            have hpc : gprev.close_price = rp.close_price := by
              rw [← hprev, mkGold_close_price]
            have hgc : gj.close_price = rj.close_price := by
              rw [← hgj, mkGold_close_price]
            rw [← hgj, mkGold_daily_return]
            by_cases hj0 : j = 0
            · subst hj0
              rw [hlast]
              simp
            · rw [if_neg hj0] at hlast
              rw [hlast, hrp]
              simp only [if_neg hj0, mkGold_close_price, hpc]
              by_cases hz : rp.close_price = 0
              · simp [hz]
              · simp [hz]

unseal Rat.add Rat.sub Rat.mul Rat.inv in
/-- Witness for C1 on the two-day scenario frame, at group position 1:
`daily_return = (11 - 10) / 10 = 1/10`. -/
theorem build_daily_return_spec_witness :
    (⟨"AAA", "HOSE", 2, 11, 200, some (1/10), 21/2, 21/2⟩ : GoldRow).daily_return =
      if (1 : Nat) = 0 then none
      else if (⟨"AAA", "HOSE", 1, 10, 100, none, 10, 10⟩ : GoldRow).close_price = 0
        then none
      else some
        (((⟨"AAA", "HOSE", 2, 11, 200, some (1/10), 21/2, 21/2⟩ : GoldRow).close_price -
            (⟨"AAA", "HOSE", 1, 10, 100, none, 10, 10⟩ : GoldRow).close_price) /
          (⟨"AAA", "HOSE", 1, 10, 100, none, 10, 10⟩ : GoldRow).close_price) :=
  build_daily_return_spec Wsc WscGold [] (by decide) "AAA" "HOSE" 1
    ⟨"AAA", "HOSE", 2, 11, 200, some (1/10), 21/2, 21/2⟩
    ⟨"AAA", "HOSE", 1, 10, 100, none, 10, 10⟩ (by decide) (by decide)

/-- C2: in the feature builder's output, the row at position `j` within its
`(symbol, exchange)` group has `ma_5` equal to the arithmetic mean of
`close_price` over group rows `max(0, j-4) .. j` (the trailing window of at
most 5 rows including the current one, expanding when fewer exist), and
`ma_20` likewise with window 20; consequently the first row of every group
has `ma_5 = ma_20 = close_price`. -/
theorem build_moving_average_spec (f : SilverFrame) (out : List GoldRow)
    (logs : List String) (h : build_stock_price_daily f = .ok (out, logs))
    (s e : String) (j : Nat) (gj : GoldRow)
    (hgj : (out.filter (inGroupG s e))[j]? = some gj) :
    gj.ma_5 = qmean ((((out.filter (inGroupG s e)).map
        (fun g => g.close_price)).take (j + 1)).drop (j + 1 - 5)) ∧
    gj.ma_20 = qmean ((((out.filter (inGroupG s e)).map
        (fun g => g.close_price)).take (j + 1)).drop (j + 1 - 20)) ∧
    (j = 0 → gj.ma_5 = gj.close_price ∧ gj.ma_20 = gj.close_price) := by
  rcases build_ok_cases f out logs h with hout | hout
  · subst hout
    simp at hgj
  · subst hout
    rw [build_filter_eq_featGroup] at hgj ⊢
    set lg := (dropDupKeepLast (sortRows (dropnaRows f.rows))).filter (inGroup s e)
      with hlg
    rw [featGroup_getElem?] at hgj
    try simp only [List.nil_append] at hgj
    cases hrj : lg[j]? with
    | none => rw [hrj] at hgj; exact absurd hgj (by simp)
    | some rj =>
        rw [hrj] at hgj
        simp only [Option.map_some', Option.some.injEq] at hgj
        have hjlt : j < lg.length := (List.getElem?_eq_some_iff.mp hrj).1
        have htake : lg.take (j + 1) = lg.take j ++ [rj] := by
          rw [List.take_succ, hrj]
          rfl
        have hmap : (featGroup [] lg).map (fun g => g.close_price) =
            lg.map (fun r => r.close_price) := featGroup_map_close [] lg
        have hlen : ((lg.map (fun r => r.close_price)).take (j + 1)).length = j + 1 := by
          rw [List.length_take, List.length_map]
          omega
        have hwin : ∀ n : Nat,
            qmean (lastN n ((lg.take j ++ [rj]).map (fun r => r.close_price))) =
              qmean (((lg.map (fun r => r.close_price)).take (j + 1)).drop (j + 1 - n)) := by
          intro n
          rw [← htake, ← List.map_take, lastN]
          rw [List.map_take, hlen]
        have hma5 : gj.ma_5 = qmean
            (((lg.map (fun r => r.close_price)).take (j + 1)).drop (j + 1 - 5)) := by
          rw [← hgj, mkGold_ma_5]
          exact hwin 5
        have hma20 : gj.ma_20 = qmean
            (((lg.map (fun r => r.close_price)).take (j + 1)).drop (j + 1 - 20)) := by
          rw [← hgj, mkGold_ma_20]
          exact hwin 20
        refine ⟨by rw [hma5, hmap], by rw [hma20, hmap], ?_⟩
        intro hj0
        subst hj0
        have h1 : (lg.map (fun r => r.close_price)).take (0 + 1) = [rj.close_price] := by
          have h2 := congrArg (List.map (fun r => r.close_price)) htake
          simp only [List.take_zero, List.nil_append, List.map_cons, List.map_nil]
            at h2
          rw [List.map_take] at h2
          exact h2
        have hq : qmean [rj.close_price] = rj.close_price := by
          rw [qmean]
          simp
        have hz5 : (0 + 1 - 5 : Nat) = 0 := rfl
        have hz20 : (0 + 1 - 20 : Nat) = 0 := rfl
        constructor
        · rw [hma5, hz5, List.drop_zero, h1, hq, ← hgj, mkGold_close_price]
        · rw [hma20, hz20, List.drop_zero, h1, hq, ← hgj, mkGold_close_price]

unseal Rat.add Rat.sub Rat.mul Rat.inv in
/-- Witness for C2 on the two-day scenario frame, at group position 1:
`ma_5 = ma_20 = (10 + 11) / 2 = 21/2`. -/
theorem build_moving_average_spec_witness :
    (⟨"AAA", "HOSE", 2, 11, 200, some (1/10), 21/2, 21/2⟩ : GoldRow).ma_5 =
      qmean ((((WscGold.filter (inGroupG "AAA" "HOSE")).map
        (fun g => g.close_price)).take (1 + 1)).drop (1 + 1 - 5)) ∧
    (⟨"AAA", "HOSE", 2, 11, 200, some (1/10), 21/2, 21/2⟩ : GoldRow).ma_20 =
      qmean ((((WscGold.filter (inGroupG "AAA" "HOSE")).map
        (fun g => g.close_price)).take (1 + 1)).drop (1 + 1 - 20)) ∧
    ((1 : Nat) = 0 →
      (⟨"AAA", "HOSE", 2, 11, 200, some (1/10), 21/2, 21/2⟩ : GoldRow).ma_5 =
        (⟨"AAA", "HOSE", 2, 11, 200, some (1/10), 21/2, 21/2⟩ : GoldRow).close_price ∧
      (⟨"AAA", "HOSE", 2, 11, 200, some (1/10), 21/2, 21/2⟩ : GoldRow).ma_20 =
        (⟨"AAA", "HOSE", 2, 11, 200, some (1/10), 21/2, 21/2⟩ : GoldRow).close_price) :=
  build_moving_average_spec Wsc WscGold [] (by decide) "AAA" "HOSE" 1
    ⟨"AAA", "HOSE", 2, 11, 200, some (1/10), 21/2, 21/2⟩ (by decide)

/-- C7: when several input rows share a `(symbol, exchange, trading_date)`
key, the builder keeps exactly one row for that key — the last one in the
stable sort order (`keep="last"`), so its `close_price` is the last-sorted
row's value — and when duplicates were dropped their count is logged. -/
theorem build_dedup_keeps_last (f : SilverFrame) (out : List GoldRow)
    (logs : List String)
    (hcols : (f.hasSymbol && f.hasExchange && f.hasTradingDate && f.hasClosePrice &&
      f.hasVolume) = true)
    (hdt : f.tdIsDatetime = true)
    (h : build_stock_price_daily f = .ok (out, logs))
    (k : String × String × Int)
    (hk : k ∈ (sortRows (dropnaRows f.rows)).map dupKey) :
    (out.filter (fun g => decide (goldKey g = k))).length = 1 ∧
    (out.filter (fun g => decide (goldKey g = k))).map (fun g => g.close_price) =
      (((sortRows (dropnaRows f.rows)).filter
          (fun r => decide (dupKey r = k))).getLast?.map
        (fun r => r.close_price)).toList ∧
    (0 < (sortRows (dropnaRows f.rows)).length -
        (dropDupKeepLast (sortRows (dropnaRows f.rows))).length →
      ("Dropped " ++ toString ((sortRows (dropnaRows f.rows)).length -
          (dropDupKeepLast (sortRows (dropnaRows f.rows))).length) ++
        " duplicate (symbol, exchange, trading_date) rows") ∈ logs) := by
  by_cases hemp : f.rows.isEmpty
  · exfalso
    rw [List.isEmpty_iff.mp hemp] at hk
    simp [sortRows, dropnaRows] at hk
  · rw [build_main f (by simpa using hemp) hcols hdt] at h
    have hpair := Except.ok.inj h
    have hout : out = featRows []
        (dropDupKeepLast (sortRows (dropnaRows f.rows))) :=
      ((Prod.mk.injEq _ _ _ _).mp hpair).1.symm
    have hlogs : logs = _ ++ _ := ((Prod.mk.injEq _ _ _ _).mp hpair).2.symm
    subst hout
    obtain ⟨r0, hr0mem, hr0key⟩ := List.mem_map.mp hk
    have hfilne : (sortRows (dropnaRows f.rows)).filter
        (fun r => decide (dupKey r = k)) ≠ [] := by
      intro hemp2
      have : r0 ∈ (sortRows (dropnaRows f.rows)).filter
          (fun r => decide (dupKey r = k)) :=
        List.mem_filter.mpr ⟨hr0mem, by simp [hr0key]⟩
      rw [hemp2] at this
      exact List.not_mem_nil r0 this
    have h1 : (dropDupKeepLast (sortRows (dropnaRows f.rows))).filter
          (fun d => decide (dupKey d = k)) =
        ((featRows [] (dropDupKeepLast (sortRows (dropnaRows f.rows)))).filter
          (fun g => decide (goldKey g = k))).map baseOf := by
      conv_lhs => rw [← featRows_map_baseOf []
        (dropDupKeepLast (sortRows (dropnaRows f.rows)))]
      rw [List.filter_map]
      rfl
    have hlen1 : ((featRows [] (dropDupKeepLast (sortRows (dropnaRows f.rows)))).filter
        (fun g => decide (goldKey g = k))).length =
        ((dropDupKeepLast (sortRows (dropnaRows f.rows))).filter
          (fun d => decide (dupKey d = k))).length := by
      rw [h1, List.length_map]
    have hdd := dropDupKeepLast_filter (sortRows (dropnaRows f.rows)) k
    cases hlast : ((sortRows (dropnaRows f.rows)).filter
        (fun r => decide (dupKey r = k))).getLast? with
    | none => exact absurd (List.getLast?_eq_none_iff.mp hlast) hfilne
    | some rl =>
        rw [hlast] at hdd
        refine ⟨?_, ?_, ?_⟩
        · rw [hlen1, hdd]
          rfl
        · have h2 : ((featRows [] (dropDupKeepLast (sortRows (dropnaRows f.rows)))).filter
              (fun g => decide (goldKey g = k))).map (fun g => g.close_price) =
              ((dropDupKeepLast (sortRows (dropnaRows f.rows))).filter
                (fun d => decide (dupKey d = k))).map (fun r => r.close_price) := by
            rw [h1, List.map_map]
            rfl
          rw [h2, hdd]
          rfl
        · intro hpos
          rw [hlogs]
          rw [if_pos hpos]
          exact List.mem_append_right _ (List.mem_singleton.mpr rfl)

unseal Rat.add Rat.sub Rat.mul Rat.inv in
/-- Witness for C7 on the duplicate-key frame: the kept row's `close_price`
is 12 (the later-sorted duplicate) and the drop count 1 is logged. -/
theorem build_dedup_keeps_last_witness :
    (WdupGold.filter (fun g => decide (goldKey g = ("AAA", "HOSE", 1)))).length = 1 ∧
    (WdupGold.filter (fun g => decide (goldKey g = ("AAA", "HOSE", 1)))).map
        (fun g => g.close_price) =
      (((sortRows (dropnaRows Wdup.rows)).filter
          (fun r => decide (dupKey r = ("AAA", "HOSE", 1)))).getLast?.map
        (fun r => r.close_price)).toList ∧
    (0 < (sortRows (dropnaRows Wdup.rows)).length -
        (dropDupKeepLast (sortRows (dropnaRows Wdup.rows))).length →
      ("Dropped " ++ toString ((sortRows (dropnaRows Wdup.rows)).length -
          (dropDupKeepLast (sortRows (dropnaRows Wdup.rows))).length) ++
        " duplicate (symbol, exchange, trading_date) rows") ∈ WdupLogs) :=
  build_dedup_keeps_last Wdup WdupGold WdupLogs (by decide) (by decide) (by decide)
    ("AAA", "HOSE", 1) (by decide)

/-! ## Claim theorems: upload retry (C4) -/

theorem uploadLoop_all_fail (put : Nat → Bool) :
    ∀ (rem attempt : Nat), 0 < rem →
      (∀ j, attempt ≤ j → j < attempt + rem → put j = false) →
      uploadLoop put attempt rem = ⟨false, rem, rem - 1⟩ := by
  intro rem
  induction rem with
  | zero => intro attempt h; omega
  | succ n ih =>
      intro attempt _ hfail
      rw [uploadLoop]
      rw [hfail attempt (Nat.le_refl _) (by omega)]
      simp only [Bool.false_eq_true, if_false]
      cases hn : n with
      | zero => simp [uploadLoop]
      | succ m =>
          have hrec := ih (attempt + 1) (by omega)
            (fun j hj1 hj2 => hfail j (by omega) (by omega))
          rw [hn] at hrec
          rw [hrec]
          simp

theorem uploadLoop_fail_then_succeed (put : Nat → Bool) :
    ∀ (rem attempt tgt : Nat), attempt ≤ tgt → tgt < attempt + rem →
      (∀ j, attempt ≤ j → j < tgt → put j = false) →
      put tgt = true →
      uploadLoop put attempt rem = ⟨true, tgt - attempt + 1, tgt - attempt⟩ := by
  intro rem
  induction rem with
  | zero => intro attempt tgt h1 h2; omega
  | succ n ih =>
      intro attempt tgt h1 h2 hfail hok
      rw [uploadLoop]
      by_cases hat : attempt = tgt
      · subst hat
        rw [hok]
        simp
      · rw [hfail attempt (Nat.le_refl _) (by omega)]
        simp only [Bool.false_eq_true, if_false]
        have hrec := ih (attempt + 1) tgt (by omega) (by omega)
          (fun j hj1 hj2 => hfail j (by omega) hj2) hok
        rw [hrec]
        have hn0 : n ≠ 0 := by omega
        simp only [hn0, if_neg, ite_false]
        have h3 : tgt - (attempt + 1) + 1 = tgt - attempt := by omega
        have h4 : tgt - (attempt + 1) + 1 + 1 = tgt - attempt + 1 := by omega
        rw [UploadTrace.mk.injEq]
        exact ⟨rfl, by omega, by omega⟩

/-- C4: for `max_retries ≥ 1`, a backend failing exactly `k < max_retries`
times before succeeding makes the upload return successfully after exactly
`k + 1` put attempts (with `k` fixed sleeps in between); a backend failing
on every one of the first `max_retries` attempts makes the upload raise
after exactly `max_retries` attempts (with `max_retries - 1` sleeps in
between). -/
theorem upload_bytes_retry_bound (maxRetries k : Nat) (h1 : 1 ≤ maxRetries) :
    (k < maxRetries →
      upload_bytes (fun n => decide (k ≤ n)) maxRetries = ⟨true, k + 1, k⟩) ∧
    (∀ put : Nat → Bool, (∀ n, n < maxRetries → put n = false) →
      upload_bytes put maxRetries = ⟨false, maxRetries, maxRetries - 1⟩) := by
  constructor
  · intro hk
    have := uploadLoop_fail_then_succeed (fun n => decide (k ≤ n)) maxRetries 0 k
      (Nat.zero_le k) (by omega)
      (fun j _ hj => by simp; omega)
      (by simp)
    simpa [upload_bytes] using this
  · intro put hput
    have := uploadLoop_all_fail put maxRetries 0 (by omega)
      (fun j hj1 hj2 => hput j (by omega))
    simpa [upload_bytes] using this

/-- Witness for C4 with `max_retries = 3`: 1 failure then success gives 2
attempts and 1 sleep; total failure gives 3 attempts, 2 sleeps, and a
raise. -/
theorem upload_bytes_retry_bound_witness :
    upload_bytes (fun n => decide (1 ≤ n)) 3 = ⟨true, 2, 1⟩ ∧
    upload_bytes (fun _ => false) 3 = ⟨false, 3, 2⟩ :=
  ⟨(upload_bytes_retry_bound 3 1 (by decide)).1 (by decide),
   (upload_bytes_retry_bound 3 1 (by decide)).2 (fun _ => false) (fun _ _ => rfl)⟩

/-! ## Claim theorems: partitioned storage writer (C8, C5) -/

/-- C8 (amended): for a non-empty dataset, the partitioned write raises
before uploading anything (zero keys written) when a supplied required
column is missing, when the partition column is absent, or when the
partition column is not of datetime dtype — the dtype precondition is
asserted, never coerced.  The assertion is `is_datetime64_any_dtype` only:
it does not require midnight-normalized (pure date) values, see the
counterexample below. -/
theorem upload_dataframe_aborts_no_partial (f : SFrame)
    (basePath partitionCol : String) (req : List String) (names : Nat → String)
    (hne : f.nrows ≠ 0)
    (h : (req ≠ [] ∧ ∃ c ∈ req, c ∉ colNames f) ∨
       partitionCol ∉ colNames f ∨
       (∃ col, findCol f partitionCol = some col ∧ col.isDatetime = false)) :
    (upload_dataframe_to_s3 f basePath partitionCol (some req) names).1 = [] ∧
    (upload_dataframe_to_s3 f basePath partitionCol (some req) names).2.isSome
      = true := by
  by_cases hP : req ≠ [] ∧ ∃ c ∈ req, c ∉ colNames f
  · simp [upload_dataframe_to_s3, hne, hP]
  · rcases h with hP' | hpc | ⟨col, hcol, hdt⟩
    · exact absurd hP' hP
    · simp [upload_dataframe_to_s3, hne, hP, hpc]
    · have hmem : partitionCol ∈ colNames f := by
        have hname : col.name = partitionCol := by
          have := List.find?_some hcol
          simpa using this
        have hin : col ∈ f.cols := List.mem_of_find?_eq_some hcol
        exact List.mem_map.mpr ⟨col, hin, hname⟩
      simp [upload_dataframe_to_s3, hne, hP, hmem, hcol, hdt]

/-- Witness for C8: a supplied required column missing from a 1-row frame
aborts with no keys written. -/
theorem upload_dataframe_aborts_no_partial_witness :
    (upload_dataframe_to_s3 W8 "b" "a" (some ["zz"]) names0).1 = [] ∧
    (upload_dataframe_to_s3 W8 "b" "a" (some ["zz"]) names0).2.isSome = true :=
  upload_dataframe_aborts_no_partial W8 "b" "a" ["zz"] names0 (by decide)
    (Or.inl ⟨by decide, "zz", by decide, by decide⟩)

/-- Counterexample to C8 as stated: the claim requires a raise whenever the
partition column "does not hold a pure date type" (no time-of-day), but on
a non-empty frame whose `trading_date` column is datetime-typed with a
non-zero time-of-day — so not a pure date — and whose supplied required
column is present, the write raises nothing and uploads the partition key,
the timestamp being truncated to its calendar date by `strftime`. -/
theorem upload_dataframe_datetime_not_pure_date_counterexample :
    (⟨2024, 1, 2, 5⟩ : Ts).tod ≠ 0 ∧
    upload_dataframe_to_s3 W8b "b" "trading_date" (some ["symbol"]) names0 =
      (["b/trading_date=2024-01-02/part-f0.parquet"], none) := by
  constructor
  · decide
  · decide

/-- Counterexample to C5 as stated: the GOLD save on a non-empty one-row
frame succeeds but returns only the partition key — no
`{location}/run_date={date}/_SUCCESS` marker is written or returned by the
gold layer. -/
theorem save_gold_no_marker_counterexample :
    save_gold_stock_price_daily WG "gold" "trading_date" names0 =
      .ok (some ["gold/trading_date=2024-01-02/part-f0.parquet"]) ∧
    successKey "gold" "2024-01-02" ∉
      ["gold/trading_date=2024-01-02/part-f0.parquet"] := by
  constructor
  · decide
  · decide

/-- C5 (amended): for the raw and silver layers, a successful non-empty save
appends the zero-byte `_SUCCESS` marker key `{location}/run_date={date}/_SUCCESS`
as the last element of the returned key list (so the marker is among the
returned keys); the gold save returns only the partition keys, with no
marker. -/
theorem save_marker_raw_silver (f : SFrame) (basePath runDate : String)
    (names : Nat → String) :
    (∀ L, save_silver_stock_price f basePath runDate names = .ok (some L) →
      successKey basePath runDate ∈ L ∧
      L.getLast? = some (successKey basePath runDate)) ∧
    (∀ L, f.nrows ≠ 0 → save_raw_stock_price f basePath runDate = .ok L →
      successKey basePath runDate ∈ L ∧
      L.getLast? = some (successKey basePath runDate)) := by
  constructor
  · intro L hL
    by_cases h0 : f.nrows = 0
    · rw [save_silver_stock_price, if_pos h0] at hL
      exact absurd (Except.ok.inj hL) (by simp)
    · rw [save_silver_stock_price, if_neg h0] at hL
      cases hfind : dateCandidates.find? (fun c => decide (c ∈ colNames f)) with
      | none => rw [hfind] at hL; exact Except.noConfusion hL
      | some pcol =>
          rw [hfind] at hL
          cases hfc : findCol
              (if pcol = "trading_date" then f else renameCol f pcol "trading_date")
              "trading_date" with
          | none =>
              simp only [hfc] at hL
              exact Except.noConfusion hL
          | some col =>
              simp only [hfc] at hL
              cases hdtb : col.isDatetime with
              | false => simp [hdtb] at hL
              | true =>
                  simp only [hdtb, Bool.not_true, Bool.false_eq_true, if_false]
                    at hL
                  cases hup : upload_dataframe_to_s3
                      (normalizeCol
                        (if pcol = "trading_date" then f
                         else renameCol f pcol "trading_date") "trading_date")
                      basePath "trading_date" (some ["trading_date", "symbol"])
                      names with
                  | mk keys err =>
                      rw [hup] at hL
                      cases err with
                      | some e => simp at hL
                      | none =>
                          have hLeq : keys ++ [successKey basePath runDate] = L := by
                            have := Except.ok.inj hL
                            simpa using this
                          subst hLeq
                          refine ⟨List.mem_append_right _ (by simp), ?_⟩
                          rw [List.getLast?_concat]
  · intro L h0 hL
    rw [save_raw_stock_price, if_neg h0] at hL
    cases hfind : dateCandidates.find? (fun c => decide (c ∈ colNames f)) with
    | none => rw [hfind] at hL; exact Except.noConfusion hL
    | some dcol =>
        rw [hfind] at hL
        cases hfc : findCol f dcol with
        | none =>
            simp only [hfc] at hL
            exact Except.noConfusion hL
        | some col =>
            simp only [hfc] at hL
            cases hdtb : col.isDatetime with
            | false => simp [hdtb] at hL
            | true =>
                simp only [hdtb, Bool.not_true, Bool.false_eq_true, if_false] at hL
                have hLeq : (partitionStrings col.vals).map (fun p =>
                    basePath ++ "/data_date=" ++ p ++ "/stock_price.json") ++
                    [successKey basePath runDate] = L := Except.ok.inj hL
                subst hLeq
                refine ⟨List.mem_append_right _ (by simp), ?_⟩
                rw [List.getLast?_concat]

/-- Witness for the amended C5 on one-row frames: silver and raw both return
their keys with the marker last. -/
theorem save_marker_raw_silver_witness :
    (successKey "silver" "2024-01-05" ∈
        ["silver/trading_date=2024-01-02/part-f0.parquet",
         "silver/run_date=2024-01-05/_SUCCESS"] ∧
      (["silver/trading_date=2024-01-02/part-f0.parquet",
        "silver/run_date=2024-01-05/_SUCCESS"] : List String).getLast? =
        some (successKey "silver" "2024-01-05")) ∧
    (successKey "bronze" "2024-01-05" ∈
        ["bronze/data_date=2024-01-02/stock_price.json",
         "bronze/run_date=2024-01-05/_SUCCESS"] ∧
      (["bronze/data_date=2024-01-02/stock_price.json",
        "bronze/run_date=2024-01-05/_SUCCESS"] : List String).getLast? =
        some (successKey "bronze" "2024-01-05")) :=
  ⟨(save_marker_raw_silver WS "silver" "2024-01-05" names0).1
      ["silver/trading_date=2024-01-02/part-f0.parquet",
       "silver/run_date=2024-01-05/_SUCCESS"] (by decide),
   (save_marker_raw_silver WS "bronze" "2024-01-05" names0).2
      ["bronze/data_date=2024-01-02/stock_price.json",
       "bronze/run_date=2024-01-05/_SUCCESS"] (by decide) (by decide)⟩

/-! ## Validator lemmas (C6) -/

/-- The message extractor used by `handleMsgs`. -/
theorem runSteps_permissive (L : List VStep) (log : List String)
    (h : ∀ st ∈ L, isHandle st = true) :
    runSteps false log L = .ok (log ++ L.filterMap (fun st =>
      match st with
      | .handle m => some m
      | .hardFail _ => none)) := by
  induction L generalizing log with
  | nil => simp [runSteps]
  | cons st rest ih =>
      cases st with
      | handle m =>
          rw [runSteps]
          simp only [Bool.false_eq_true, if_false, ite_false]
          rw [ih (log ++ [m]) (fun s hs => h s (List.mem_cons_of_mem _ hs))]
          simp [List.filterMap_cons]
      | hardFail m =>
          exact absurd (h _ (List.mem_cons_self _ _)) (by simp [isHandle])

theorem runSteps_strict (L : List VStep) (log : List String)
    (h : ∀ st ∈ L, isHandle st = true) :
    runSteps true log L =
      match L.filterMap (fun st =>
        match st with
        | .handle m => some m
        | .hardFail _ => none) with
      | [] => .ok log
      | m :: _ => .error m := by
  induction L generalizing log with
  | nil => simp [runSteps]
  | cons st rest ih =>
      cases st with
      | handle m => simp [runSteps, List.filterMap_cons]
      | hardFail m =>
          exact absurd (h _ (List.mem_cons_self _ _)) (by simp [isHandle])

theorem typeSteps_isHandle (df : VFrame) (cname : String) (rule : ColRule) :
    ∀ st ∈ typeSteps df cname rule, isHandle st = true := by
  intro st hst
  unfold typeSteps at hst
  cases hv : vfind df cname with
  | none =>
      rw [hv] at hst
      exact absurd hst (List.not_mem_nil st)
  | some col =>
      rw [hv] at hst
      rw [List.mem_append] at hst
      rcases hst with h | h <;>
        split_ifs at h <;>
        first
          | exact absurd h (List.not_mem_nil st)
          | (rw [List.mem_singleton] at h; subst h; rfl)

theorem pkNullSteps_isHandle (df : VFrame) (pks : List String) :
    ∀ st ∈ pkNullSteps df pks, isHandle st = true := by
  intro st h
  obtain ⟨c, hc, heq⟩ := List.mem_filterMap.mp h
  cases hvc : vfind df c with
  | none =>
      rw [hvc] at heq
      exact Option.noConfusion heq
  | some col =>
      simp only [hvc] at heq
      split_ifs at heq <;>
        first
          | exact Option.noConfusion heq
          | (rw [Option.some.injEq] at heq; subst heq; rfl)

theorem notNullSteps_isHandle (df : VFrame) (cols : List String) :
    ∀ st ∈ notNullSteps df cols, isHandle st = true := by
  intro st h
  obtain ⟨c, hc, heq⟩ := List.mem_filterMap.mp h
  cases hvc : vfind df c with
  | none =>
      rw [hvc] at heq
      exact Option.noConfusion heq
  | some col =>
      simp only [hvc] at heq
      split_ifs at heq <;>
        first
          | exact Option.noConfusion heq
          | (rw [Option.some.injEq] at heq; subst heq; rfl)

theorem allSteps_no_hardFail (df : VFrame) (schema : Schema)
    (hpk : ∀ c ∈ schema.primary_key, c ∈ vcolNames df)
    (hq : ∀ c ∈ schema.qualityPositive, ∀ col, vfind df c = some col →
      ∀ v ∈ col.cells.filterMap id, isNumericCell v = true) :
    ∀ st ∈ allSteps df schema, isHandle st = true := by
  intro st hst
  rw [allSteps] at hst
  simp only [List.mem_append] at hst
  rcases hst with ((((h | h) | h) | h) | h) | h
  · simp only [missingColsSteps] at h
    split_ifs at h <;>
      first
        | exact absurd h (List.not_mem_nil st)
        | (rw [List.mem_singleton] at h; subst h; rfl)
  · obtain ⟨p, hp, heq⟩ := List.mem_filterMap.mp h
    split_ifs at heq <;>
      first
        | exact Option.noConfusion heq
        | (rw [Option.some.injEq] at heq; subst heq; rfl)
  · obtain ⟨l, hl, hstl⟩ := List.mem_flatten.mp h
    obtain ⟨⟨c, r⟩, _, hlr⟩ := List.mem_map.mp hl
    subst hlr
    exact typeSteps_isHandle df c r st hstl
  · unfold pkSteps at h
    have hany : schema.primary_key.any
        (fun c => decide (c ∉ vcolNames df)) = false := by
      rw [List.any_eq_false]
      intro c hc
      simp [hpk c hc]
    rw [hany] at h
    simp only [Bool.false_eq_true, if_false, ite_false] at h
    by_cases hemp : schema.primary_key.isEmpty = true
    · rw [if_pos hemp] at h
      exact absurd h (List.not_mem_nil st)
    · rw [if_neg hemp] at h
      rw [List.mem_append] at h
      rcases h with h | h
      · exact pkNullSteps_isHandle df _ st h
      · by_cases hdup : pkDuplicated df schema.primary_key = true
        · rw [if_pos hdup] at h
          rw [List.mem_singleton] at h
          subst h
          rfl
        · rw [if_neg hdup] at h
          exact absurd h (List.not_mem_nil st)
  · exact notNullSteps_isHandle df _ st h
  · obtain ⟨c, hc, heq⟩ := List.mem_filterMap.mp h
    cases hvc : vfind df c with
    | none =>
        rw [hvc] at heq
        exact Option.noConfusion heq
    | some col =>
        have hnum : (col.cells.filterMap id).any (fun v => !isNumericCell v)
            = false := by
          rw [List.any_eq_false]
          intro v hv2
          simp [hq c hc col hvc v hv2]
        simp only [hvc, hnum, Bool.false_eq_true, if_false, ite_false] at heq
        split_ifs at heq <;>
          first
            | exact Option.noConfusion heq
            | (rw [Option.some.injEq] at heq; subst heq; rfl)

/-! ## Claim theorems: validator modes (C6) -/

/-- Counterexample to C6 as stated: on a non-empty frame whose declared
primary-key column `a` is absent, permissive validation does not return
normally — `df.duplicated(subset=pk_cols)` raises `KeyError` in either
mode (after having logged the missing-column violation). -/
theorem validate_permissive_raises_counterexample :
    VFrameCE.nrows ≠ 0 ∧
    validate_dataframe_schema VFrameCE SchemaCE false =
      .error "KeyError: primary key column missing" := by
  constructor
  · decide
  · decide

/-- C6 (amended): for every non-empty dataset and contract whose declared
primary-key columns all exist in the dataset and whose `positive_values`
quality columns hold only numeric non-null data, permissive validation logs
every violation and returns normally; strict validation raises at the first
violation (fail-fast: the error is the head of the permissive log) and
succeeds exactly when there is no violation; hence a dataset passing strict
validation also passes permissive validation with nothing logged.  Without
the primary-key proviso, the duplicate-key check raises `KeyError` in both
modes; without the numeric proviso, the negative-values check raises
`TypeError` in both modes. -/
theorem validate_modes_spec (df : VFrame) (schema : Schema)
    (hne : df.nrows ≠ 0)
    (hpk : ∀ c ∈ schema.primary_key, c ∈ vcolNames df)
    (hq : ∀ c ∈ schema.qualityPositive, ∀ col, vfind df c = some col →
      ∀ v ∈ col.cells.filterMap id, isNumericCell v = true) :
    validate_dataframe_schema df schema false = .ok (handleMsgs df schema) ∧
    (handleMsgs df schema = [] →
      validate_dataframe_schema df schema true = .ok []) ∧
    (∀ m rest, handleMsgs df schema = m :: rest →
      validate_dataframe_schema df schema true = .error m) ∧
    (∀ log, validate_dataframe_schema df schema true = .ok log →
      validate_dataframe_schema df schema false = .ok []) := by
  have hnh := allSteps_no_hardFail df schema hpk hq
  have hperm : validate_dataframe_schema df schema false =
      .ok (handleMsgs df schema) := by
    rw [validate_dataframe_schema, if_neg hne, runSteps_permissive _ _ hnh]
    rw [handleMsgs]
    simp
  have hstrict : validate_dataframe_schema df schema true =
      match handleMsgs df schema with
      | [] => .ok []
      | m :: _ => .error m := by
    rw [validate_dataframe_schema, if_neg hne, runSteps_strict _ _ hnh]
    rfl
  refine ⟨hperm, ?_, ?_, ?_⟩
  · intro hnil
    rw [hstrict, hnil]
  · intro m rest hcons
    rw [hstrict, hcons]
  · intro log hok
    rw [hstrict] at hok
    cases hmsgs : handleMsgs df schema with
    | nil => rw [hperm, hmsgs]
    | cons m rest =>
        rw [hmsgs] at hok
        exact Except.noConfusion hok

/-- Witness for the amended C6: a non-nullable float column containing a
null — permissive logs the one violation and returns, strict raises it. -/
theorem validate_modes_spec_witness :
    validate_dataframe_schema VFrameW SchemaW false =
      .ok (handleMsgs VFrameW SchemaW) ∧
    validate_dataframe_schema VFrameW SchemaW true =
      .error "Column v contains NULL but nullable=false" :=
  ⟨(validate_modes_spec VFrameW SchemaW (by decide) (by decide) (by decide)).1,
   (validate_modes_spec VFrameW SchemaW (by decide) (by decide)
      (by decide)).2.2.1 "Column v contains NULL but nullable=false" []
      (by decide)⟩

/-! ## Claim theorems: cleaning-step volume invariant (C10) -/

theorem cleanVolume_nonneg (v : Option ℚ) : 0 ≤ cleanVolume v := by
  rw [cleanVolume]
  split_ifs with h
  · exact le_refl 0
  · cases v with
    | none => exact le_refl 0
    | some q => exact le_of_not_lt h

theorem clean_volume_invariant_main (f : RawFrame) (ex src : String)
    (out : List CleanRow)
    (h : Except.ok (f.rows.filterMap (fun r =>
        match r.symbol, r.dateVal.map normTs, r.close with
        | some s, some dte, some c =>
            some ⟨s, dte, c, cleanVolume r.volume, ex, src⟩
        | _, _, _ => none)) = (.ok out : Except String (List CleanRow))) :
    (∀ r ∈ out, 0 ≤ r.volume) ∧
    (∀ rr ∈ f.rows, ∀ s d c, rr.symbol = some s → rr.dateVal = some d →
      rr.close = some c →
      (⟨s, normTs d, c, cleanVolume rr.volume, ex, src⟩ : CleanRow) ∈ out) ∧
    (∀ v : Option ℚ, v = none → cleanVolume v = 0) ∧
    (∀ q : ℚ, q < 0 → cleanVolume (some q) = 0) := by
  have hout : f.rows.filterMap (fun r =>
      match r.symbol, r.dateVal.map normTs, r.close with
      | some s, some dte, some c =>
          some ⟨s, dte, c, cleanVolume r.volume, ex, src⟩
      | _, _, _ => none) = out := Except.ok.inj h
  subst hout
  refine ⟨?_, ?_, ?_, ?_⟩
  · intro r hr
    obtain ⟨rr, _, heq⟩ := List.mem_filterMap.mp hr
    cases hs : rr.symbol with
    | none => rw [hs] at heq; exact Option.noConfusion heq
    | some s =>
        cases hd : rr.dateVal with
        | none => rw [hs, hd] at heq; exact Option.noConfusion heq
        | some d =>
            cases hc : rr.close with
            | none => rw [hs, hd] at heq; exact absurd heq (by rw [hc]; simp)
            | some c =>
                rw [hs, hd, hc] at heq
                simp only [Option.map_some', Option.some.injEq] at heq
                rw [← heq]
                exact cleanVolume_nonneg rr.volume
  · intro rr hrr s d c h1 h2 h3
    exact List.mem_filterMap.mpr ⟨rr, hrr, by rw [h1, h2, h3]; rfl⟩
  · intro v hv
    rw [hv, cleanVolume]
    simp
  · intro q hq
    rw [cleanVolume]
    simp only [Option.getD_some]
    rw [if_pos hq]

/-- C10: whenever the cleaner accepts a non-empty input, every output row's
`volume` is non-null (it is a total `ℚ`, not an `Option`) and non-negative;
a row whose `symbol`, date and close are present is kept regardless of its
volume, with the volume mapped through `cleanVolume` — missing or
unparseable volumes become 0 and strictly negative volumes become 0. -/
theorem clean_volume_invariant (f : RawFrame) (ex src : String)
    (out : List CleanRow) (hne : f.rows ≠ [])
    (h : clean_stock_price f ex src = .ok out) :
    (∀ r ∈ out, 0 ≤ r.volume) ∧
    (∀ rr ∈ f.rows, ∀ s d c, rr.symbol = some s → rr.dateVal = some d →
      rr.close = some c →
      (⟨s, normTs d, c, cleanVolume rr.volume, ex, src⟩ : CleanRow) ∈ out) ∧
    (∀ v : Option ℚ, v = none → cleanVolume v = 0) ∧
    (∀ q : ℚ, q < 0 → cleanVolume (some q) = 0) := by
  rw [clean_stock_price] at h
  have h1 : ¬(f.rows.isEmpty = true) := fun hx => hne (List.isEmpty_iff.mp hx)
  rw [if_neg h1] at h
  by_cases h2 : (!(f.hasTime || f.hasDate)) = true
  · rw [if_pos h2] at h
    exact Except.noConfusion h
  · rw [if_neg h2] at h
    by_cases h3 : (!f.dateIsDatetime && f.rows.any fun r => r.dateVal.isNone) = true
    · rw [if_pos h3] at h
      exact Except.noConfusion h
    · rw [if_neg h3] at h
      by_cases h4 : (!f.hasVolume) = true
      · rw [if_pos h4] at h
        exact Except.noConfusion h
      · rw [if_neg h4] at h
        by_cases h5 : (!f.hasSymbol) = true
        · rw [if_pos h5] at h
          exact Except.noConfusion h
        · rw [if_neg h5] at h
          by_cases h6 : (!f.hasClose) = true
          · rw [if_pos h6] at h
            exact Except.noConfusion h
          · rw [if_neg h6] at h
            exact clean_volume_invariant_main f ex src out h

/-- Witness for C10 on `WRaw`: the missing-volume row is kept with volume 0,
the negative volume is clamped to 0, and every kept volume is
non-negative. -/
theorem clean_volume_invariant_witness :
    (0 : ℚ) ≤ (⟨"AAA", ⟨2024, 1, 2, 0⟩, 10, 0, "HOSE", "vnstock"⟩ : CleanRow).volume ∧
    (⟨"AAA", ⟨2024, 1, 2, 0⟩, 10, 0, "HOSE", "vnstock"⟩ : CleanRow) ∈ WClean ∧
    cleanVolume none = 0 ∧
    cleanVolume (some (-5)) = 0 := by
  have h := clean_volume_invariant WRaw "HOSE" "vnstock" WClean (by decide)
    (by decide)
  exact ⟨h.1 _ (by decide),
    h.2.1 ⟨some "AAA", some ⟨2024, 1, 2, 0⟩, some 10, none⟩ (by decide)
      "AAA" ⟨2024, 1, 2, 0⟩ 10 rfl rfl rfl,
    h.2.2.1 none rfl,
    h.2.2.2 (-5) (by decide)⟩
